import Mathlib

/-!
Shallow embedding of the NCBI-Hackathons "Broad Institute Single-Cell
RNA-Seq Data Set" repository.

The repository contains:
* a WDL workflow (in `src/method/README.md`) wiring the external inferCNV
  tool (`run_infercnv`) to a conversion step (`run_matrix_to_ideogram_annots`);
* a React front end (`src/visualization/react/src/App.js`) rendering an
  Ideogram.js visualization.

The conversion scripts themselves (`matrix_to_ideogram_annots.py`,
`scp_to_infercnv.py`) live in an external repository and are only invoked
here; where a claim is decided by their behaviour, the corresponding
definition is modelled from the spec and marked as such in its doc comment.
-/

/- ### WDL workflow embedding (src/method/README.md) -/

/-- Inputs of the `infercnv` WDL workflow, as declared at the top of the
workflow block in `src/method/README.md`. -/
structure InfercnvWorkflowInputs where
  matrix_file : String
  gene_pos_file : String
  metadata_file : String
  output_dir : String
  diskSpace : String
  delimiter : String
  ref_cluster_name : String
  ref_group_name : String
  ref_cluster_file : String
  obs_cluster_name : String
  obs_cluster_file : String
  reference_cell_annotation : String
  observation_cell_annotation : String

/-- Bash ANSI-C quoting of a delimiter string, as it appears literally in the
WDL command blocks: the token the shell receives is the interpolated text
wrapped in a dollar-quote. -/
def ansiCQuote (s : String) : String := "$" ++ "\x27" ++ s ++ "\x27"

/-- Delimiter token handed to `check_matrix_format.py --delimiter` inside the
`run_infercnv` task command: the workflow-supplied delimiter, interpolated
into an ANSI-C quote (line `--delimiter $'${delimiter}'`). -/
def run_infercnv_matrix_delimiter_token (i : InfercnvWorkflowInputs) : String :=
  ansiCQuote i.delimiter

/-- Delimiter token handed to `inferCNV.R --delim` inside the `run_infercnv`
task command (line `--delim $'${delimiter}'`). -/
def run_infercnv_delim_token (i : InfercnvWorkflowInputs) : String :=
  ansiCQuote i.delimiter

/-- Delimiter token handed to `matrix_to_ideogram_annots.py --matrix-delimiter`
inside the `run_matrix_to_ideogram_annots` task command. The WDL source
hard-codes the token `$' '` (a single space under ANSI-C quoting); the
workflow-level `delimiter` input does not occur in this task at all. -/
def run_matrix_to_ideogram_annots_matrix_delimiter_token
    (_ : InfercnvWorkflowInputs) : String :=
  ansiCQuote " "

/-- Output files declared by the `run_infercnv` task's `output` block. -/
structure RunInfercnvOutputs where
  figure : String
  observations_matrix_file : String
  heatmap_thresholds_file : String
  ref_group_names_file : String

/-- Output block of the `run_infercnv` task: each file path is the literal
interpolation written in the WDL source. -/
def run_infercnv_outputs (i : InfercnvWorkflowInputs) : RunInfercnvOutputs where
  figure := i.output_dir ++ "/infercnv.png"
  observations_matrix_file := i.output_dir ++ "/infercnv.observations.txt"
  heatmap_thresholds_file := i.output_dir ++ "/infercnv.heatmap_thresholds.txt"
  ref_group_names_file := i.output_dir ++ "/infercnv_reference_cell_labels_from_scp.tsv"

/-- Inputs bound at the workflow's `call run_matrix_to_ideogram_annots` site
(the `input:` block of the second call in the workflow body). -/
structure MatrixToIdeogramCallInputs where
  matrix_file : String
  ref_group_names_file : String
  heatmap_thresholds_file : String
  gene_pos_file : String
  ref_cluster_name : String
  ref_cluster_file : String
  obs_cluster_name : String
  obs_cluster_file : String
  ref_group_name : String
  metadata_file : String
  diskSpace : String
  output_dir : String

/-- Wiring of the `call run_matrix_to_ideogram_annots` site in the workflow
body: each field is bound exactly as the WDL source binds it, in particular
`matrix_file`, `ref_group_names_file` and `heatmap_thresholds_file` are taken
from the `run_infercnv` task's outputs. -/
def matrix_to_ideogram_call (i : InfercnvWorkflowInputs) :
    MatrixToIdeogramCallInputs where
  matrix_file := (run_infercnv_outputs i).observations_matrix_file
  ref_group_names_file := (run_infercnv_outputs i).ref_group_names_file
  heatmap_thresholds_file := (run_infercnv_outputs i).heatmap_thresholds_file
  gene_pos_file := i.gene_pos_file
  ref_cluster_name := i.ref_cluster_name
  ref_cluster_file := i.ref_cluster_file
  obs_cluster_name := i.obs_cluster_name
  obs_cluster_file := i.obs_cluster_file
  ref_group_name := i.ref_group_name
  metadata_file := i.metadata_file
  diskSpace := i.diskSpace
  output_dir := i.output_dir

/-- File name pattern of one emitted ideogram-annotation JSON file, as written
in the `run_matrix_to_ideogram_annots` output block:
`ideogram_exp_means__${obs_cluster_name}--${ref_group_name}--group--cluster.json`. -/
def ideogramAnnotsFileName (obs ref : String) : String :=
  "ideogram_exp_means__" ++ obs ++ "--" ++ ref ++ "--group--cluster.json"

/-- Full output path of one emitted annotation file, under the
`ideogram_exp_means` subdirectory of the output directory. -/
def ideogramAnnotsPath (dir obs ref : String) : String :=
  dir ++ "/ideogram_exp_means/" ++ ideogramAnnotsFileName obs ref

/- ### React front end embedding (src/visualization/react/src/App.js) -/

/-- Single row of the heatmap legend: display name and CSS color. -/
structure LegendRow where
  name : String
  color : String
deriving DecidableEq, Repr

/-- Legend block passed to the Ideogram constructor. -/
structure LegendEntry where
  name : String
  rows : List LegendRow
deriving DecidableEq, Repr

/-- Configuration object literal passed to `new Ideogram(...)` in
`AppIdeogram.componentDidMount`. -/
structure IdeogramConfig where
  organism : String
  assembly : String
  orientation : String
  chrHeight : Nat
  chrMargin : Nat
  showBandLabels : Bool
  legend : List LegendEntry
  annotationHeight : Nat
  annotationsLayout : String
  dataDir : String
  annotationsPath : String
  geometry : String
deriving DecidableEq, Repr

/-- An Ideogram.js instance, determined by the configuration it was
constructed with (`new Ideogram(config)`). -/
structure Ideogram where
  config : IdeogramConfig
deriving DecidableEq, Repr

/-- Legend value built at the top of `componentDidMount`: one entry named
"Expression level" with the three rows Low, Normal, High. -/
def appIdeogramLegend : List LegendEntry :=
  [{ name := "Expression level",
     rows := [{ name := "Low", color := "#33F" },
              { name := "Normal", color := "#CCC" },
              { name := "High", color := "#F33" }] }]

/-- Configuration literal of the `new Ideogram(...)` call in
`componentDidMount`, field for field from App.js. -/
def appIdeogramConfig : IdeogramConfig where
  organism := "human"
  assembly := "GRCh37"
  orientation := "horizontal"
  chrHeight := 80
  chrMargin := 10
  showBandLabels := false
  legend := appIdeogramLegend
  annotationHeight := 30
  annotationsLayout := "heatmap"
  dataDir := "https://unpkg.com/ideogram@1.8.0/dist/data/bands/native/"
  annotationsPath := "data/ideogram_exp_means__observation--Sample--group--cluster.json"
  geometry := "collinear"

/-- Browser window global object: the `ideogram` property the component
assigns, plus all other window state (abstracted as one field, untouched by
the component). -/
structure BrowserWindow (W : Type) where
  ideogram : Option Ideogram
  rest : W

/-- Shallow embedding of `AppIdeogram.componentDidMount`. The method reads no
props and no state (modelled by fully generic arguments), constructs one
Ideogram from the constant configuration, assigns it to `window.ideogram`,
and returns it. -/
def componentDidMount {P S W : Type} (_ : P) (_ : S) (w : BrowserWindow W) :
    BrowserWindow W × Ideogram :=
  let inst : Ideogram := { config := appIdeogramConfig }
  ({ w with ideogram := some inst }, inst)

/- ### Conversion-step core, modelled from the spec -/

/-- Modelled from the spec: threshold binning in the Annotation Emitter
(`matrix_to_ideogram_annots.py`, not in this repository). The bin is the
one-based position of the mean within the sorted threshold sequence — the
number of thresholds strictly below the mean, plus one, clamped to the number
of thresholds — so a mean equal to a boundary falls in the lower bin
(bisect-left semantics), and the spec's concrete scenario (thresholds 3 and 8:
mean 3 gives bin 1, mean 10 gives bin 2) is reproduced. -/
def getBin (ts : List ℚ) (m : ℚ) : Nat :=
  min ((ts.filter (fun t => t < m)).length + 1) ts.length

/-- Modelled from the spec: arithmetic mean of a list of values (sum divided
by count). -/
def meanOf (xs : List ℚ) : ℚ :=
  xs.sum / xs.length

/-- Expression matrix: header of cell identifiers in column order, and gene
rows in input row order, each a gene identifier with one value per cell. -/
structure ExpressionMatrix where
  cells : List String
  rows : List (String × List ℚ)

/-- Cell metadata: association list from cell identifier to cluster/group
label, as parsed from the metadata/cluster files. -/
def CellMetadata := List (String × String)

/-- Modelled from the spec: look up the cluster label of a cell in the
metadata (first matching entry). -/
def lookupLabel (meta : CellMetadata) (cell : String) : Option String :=
  (meta.find? (fun p => p.1 = cell)).map (fun p => p.2)

/-- Modelled from the spec: the values of one gene row restricted to the
columns whose cell identifier carries the given label, in the original
column order of the matrix. -/
def selectCols (cells : List String) (vals : List ℚ) (meta : CellMetadata)
    (label : String) : List ℚ :=
  ((cells.zip vals).filter (fun p => lookupLabel meta p.1 = some label)).map
    (fun p => p.2)

/-- Modelled from the spec: number of matrix columns belonging to a cluster
label. -/
def clusterSize (m : ExpressionMatrix) (meta : CellMetadata)
    (label : String) : Nat :=
  (m.cells.filter (fun c => lookupLabel meta c = some label)).length

/-- Modelled from the spec: per-gene arithmetic mean over the columns of one
cluster, genes kept in the input matrix row order. -/
def clusterMeans (m : ExpressionMatrix) (meta : CellMetadata)
    (label : String) : List (String × ℚ) :=
  m.rows.map (fun r => (r.1, meanOf (selectCols m.cells r.2 meta label)))

/-- Gene position entry: chromosome name and integer start/end coordinates. -/
structure GenePos where
  chr : String
  start : Int
  stop : Int
deriving DecidableEq, Repr

/-- Modelled from the spec: gene-position mapping as an association list from
gene identifier to position entry. -/
def lookupPos (genePos : List (String × GenePos)) (g : String) :
    Option GenePos :=
  (genePos.find? (fun p => p.1 = g)).map (fun p => p.2)

/-- One output annotation record: gene, chromosome, coordinates, bin. -/
structure Annot where
  gene : String
  chr : String
  start : Int
  stop : Int
  bin : Nat
deriving DecidableEq, Repr

/-- Modelled from the spec: the Annotation Emitter's record list for one
group — every gene mean whose gene has a position entry becomes one record
(gene order following the means list), genes without a position entry are
skipped. -/
def emitAnnots (means : List (String × ℚ)) (genePos : List (String × GenePos))
    (ts : List ℚ) : List Annot :=
  means.filterMap (fun gm =>
    (lookupPos genePos gm.1).map (fun p =>
      { gene := gm.1, chr := p.chr, start := p.start, stop := p.stop,
        bin := getBin ts gm.2 }))

/-- Modelled from the spec: the documented skip count — the number of gene
means whose gene lacks a position entry. -/
def skippedGeneCount (means : List (String × ℚ))
    (genePos : List (String × GenePos)) : Nat :=
  (means.filter (fun gm => lookupPos genePos gm.1 = none)).length

/-- Error taxonomy of the spec: malformed input, missing identifier or
cluster, and empty aggregate / empty document. -/
inductive PipelineError where
  | FormatError
  | LookupError
  | DataQualityError
deriving DecidableEq, Repr

/-- One written output file: its path and its annotation records. -/
structure OutputFile where
  path : String
  annots : List Annot
deriving Repr

/-- Modelled from the spec: aggregation and emission for one
(observation-cluster, reference-group) pair. A cluster with zero matching
cells fails with `DataQualityError` before any aggregate is formed, so no
division by zero occurs and no file is produced for the group. -/
def emitGroup (m : ExpressionMatrix) (meta : CellMetadata)
    (genePos : List (String × GenePos)) (ts : List ℚ) (dir obs ref : String)
    (label : String) : Except PipelineError OutputFile :=
  if clusterSize m meta label = 0 then
    .error .DataQualityError
  else
    .ok { path := ideogramAnnotsPath dir obs ref,
          annots := emitAnnots (clusterMeans m meta label) genePos ts }

/-- Files actually written by a run outcome: the emitted file on success,
nothing on failure. -/
def filesWritten (r : Except PipelineError OutputFile) : List OutputFile :=
  match r with
  | .ok f => [f]
  | .error _ => []

/-- Modelled from the spec: output paths of one pipeline run covering a list
of reference groups — one file per (observation-cluster, reference-group)
pair, at the path pattern of the WDL output block. -/
def emittedPaths (dir obs : String) (refGroups : List String) : List String :=
  refGroups.map (fun r => ideogramAnnotsPath dir obs r)

/-- Modelled from the spec: thresholds used by the emitter in one workflow
run — the numeric sequence read from the file handed to
`--heatmap-thresholds-path` at the conversion call site, used as-is. The
store maps each path to the ordered numeric sequence held by the file
there. -/
def workflowEmitterThresholds (i : InfercnvWorkflowInputs)
    (store : String → List ℚ) : List ℚ :=
  store (matrix_to_ideogram_call i).heatmap_thresholds_file

/-- Threshold sequence emitted by the inference step in one workflow run: the
contents of the `heatmap_thresholds_file` declared in the `run_infercnv`
output block. -/
def inferenceThresholds (i : InfercnvWorkflowInputs)
    (store : String → List ℚ) : List ℚ :=
  store (run_infercnv_outputs i).heatmap_thresholds_file


/- ### Concrete instances used as evaluation inputs -/

/-- Expression matrix of the spec's concrete scenario: one gene, three
cells. -/
def exampleMatrix : ExpressionMatrix where
  cells := ["cell1", "cell2", "cell3"]
  rows := [("geneA", [2, 4, 10])]

/-- Metadata of the spec's concrete scenario: two observation cells, one
reference cell. -/
def exampleMeta : CellMetadata :=
  [("cell1", "obs"), ("cell2", "obs"), ("cell3", "ref")]

/-- Gene means with one positioned and one unpositioned gene. -/
def exampleMeans : List (String × ℚ) := [("geneA", 3), ("geneB", 5)]

/-- Gene-position table of the spec's concrete scenario. -/
def exampleGenePos : List (String × GenePos) :=
  [("geneA", { chr := "chr1", start := 1000, stop := 2000 })]

/-- Matrix with a single cell, used to request a cluster with no members. -/
def zeroCellMatrix : ExpressionMatrix where
  cells := ["cell1"]
  rows := [("geneA", [2])]

/-- Metadata mapping the single cell to a cluster other than the requested
one. -/
def zeroCellMeta : CellMetadata := [("cell1", "obs")]

/- ### Helper lemmas -/

/-- Concatenation of strings concatenates their character data. -/
theorem data_append_eq (a b : String) : (a ++ b).data = a.data ++ b.data := rfl

/-- Appending fixed strings on both sides is injective in the middle part. -/
theorem append_middle_inj (a c : String) :
    Function.Injective (fun r => a ++ r ++ c) := by
  intro r s h
  have hd := congrArg String.data h
  simp only [data_append_eq, List.append_assoc] at hd
  have hd2 := List.append_cancel_left hd
  have hd3 := List.append_cancel_right hd2
  cases r
  cases s
  exact congrArg String.mk (by simpa using hd3)

/-- Unfolding of a metadata lookup along a cons cell. -/
theorem lookupLabel_cons (c lab cell : String) (t : CellMetadata) :
    lookupLabel ((c, lab) :: t) cell
      = if c = cell then some lab else lookupLabel t cell := by
  by_cases h : c = cell <;> simp [lookupLabel, List.find?_cons, h]

/-- Counting metadata keys that look up to a label equals counting metadata
entries carrying the label, when keys are unique. -/
theorem meta_label_count (meta : CellMetadata) (L : String)
    (hnd : (meta.map Prod.fst).Nodup) :
    ((meta.map Prod.fst).filter (fun c => lookupLabel meta c = some L)).length
      = (meta.filter (fun p => p.2 = L)).length := by
  induction meta with
  | nil => simp
  | cons hd t ih =>
    obtain ⟨c, lab⟩ := hd
    simp only [List.map_cons, List.nodup_cons] at hnd
    have hcongr : (t.map Prod.fst).filter
          (fun x => lookupLabel ((c, lab) :: t) x = some L)
        = (t.map Prod.fst).filter (fun x => lookupLabel t x = some L) := by
      apply List.filter_congr
      intro x hx
      have hxc : ¬ c = x := fun he => hnd.1 (he ▸ hx)
      simp [lookupLabel_cons, hxc]
    rw [List.map_cons, List.filter_cons, List.filter_cons, hcongr]
    by_cases hl : lab = L
    · have h1 : (decide (lookupLabel ((c, lab) :: t) c = some L)) = true := by
        simp [lookupLabel_cons, hl]
      have h2 : (decide ((c, lab).2 = L)) = true := by simp [hl]
      rw [h1, h2]
      simp [ih hnd.2]
    · have h1 : (decide (lookupLabel ((c, lab) :: t) c = some L)) = false := by
        simp [lookupLabel_cons, hl]
      have h2 : (decide ((c, lab).2 = L)) = false := by simp [hl]
      rw [h1, h2]
      simp [ih hnd.2]

/-- Number of selected columns in one row equals the number of selected cells,
when the row has one value per cell. -/
theorem selectCols_length (cells : List String) (vals : List ℚ)
    (meta : CellMetadata) (label : String) (h : vals.length = cells.length) :
    (selectCols cells vals meta label).length
      = (cells.filter (fun c => lookupLabel meta c = some label)).length := by
  induction cells generalizing vals with
  | nil => simp [selectCols]
  | cons c cs ih =>
    cases vals with
    | nil => simp at h
    | cons v vs =>
      simp only [List.length_cons, Nat.succ.injEq] at h
      have ih' := ih vs h
      simp only [selectCols, List.length_map] at ih' ⊢
      rw [List.zip_cons_cons, List.filter_cons, List.filter_cons]
      by_cases hc : lookupLabel meta c = some label
      · have h1 : (decide (lookupLabel meta (c, v).1 = some label)) = true := by
          simp [hc]
        rw [h1]
        simp [ih']
      · have h1 : (decide (lookupLabel meta (c, v).1 = some label)) = false := by
          simp [hc]
        rw [h1]
        simp [ih']

/-- Selected columns of one row form a sublist of the row, so they appear in
the original column order. -/
theorem selectCols_sublist (cells : List String) (vals : List ℚ)
    (meta : CellMetadata) (label : String) :
    (selectCols cells vals meta label).Sublist vals := by
  induction cells generalizing vals with
  | nil => simp [selectCols]
  | cons c cs ih =>
    cases vals with
    | nil => simp [selectCols]
    | cons v vs =>
      by_cases hc : lookupLabel meta c = some label
      · simpa [selectCols, List.zip_cons_cons, List.filter_cons, hc] using
          List.Sublist.cons₂ v (ih vs)
      · simpa [selectCols, List.zip_cons_cons, List.filter_cons, hc] using
          List.Sublist.cons v (ih vs)

/-- Cons equation of the emitter for a gene with a position entry. -/
theorem emitAnnots_cons_some (gm : String × ℚ) (t : List (String × ℚ))
    (gp : List (String × GenePos)) (ts : List ℚ) (p : GenePos)
    (h : lookupPos gp gm.1 = some p) :
    emitAnnots (gm :: t) gp ts
      = { gene := gm.1, chr := p.chr, start := p.start, stop := p.stop,
          bin := getBin ts gm.2 } :: emitAnnots t gp ts := by
  simp [emitAnnots, List.filterMap_cons, h]

/-- Cons equation of the emitter for a gene without a position entry. -/
theorem emitAnnots_cons_none (gm : String × ℚ) (t : List (String × ℚ))
    (gp : List (String × GenePos)) (ts : List ℚ)
    (h : lookupPos gp gm.1 = none) :
    emitAnnots (gm :: t) gp ts = emitAnnots t gp ts := by
  simp [emitAnnots, List.filterMap_cons, h]

/-- Cons equation of the skip count for a gene with a position entry. -/
theorem skippedGeneCount_cons_some (gm : String × ℚ) (t : List (String × ℚ))
    (gp : List (String × GenePos)) (p : GenePos)
    (h : lookupPos gp gm.1 = some p) :
    skippedGeneCount (gm :: t) gp = skippedGeneCount t gp := by
  simp [skippedGeneCount, List.filter_cons, h]

/-- Cons equation of the skip count for a gene without a position entry. -/
theorem skippedGeneCount_cons_none (gm : String × ℚ) (t : List (String × ℚ))
    (gp : List (String × GenePos)) (h : lookupPos gp gm.1 = none) :
    skippedGeneCount (gm :: t) gp = skippedGeneCount t gp + 1 := by
  simp [skippedGeneCount, List.filter_cons, h]

/-- Every emitted record and every skipped gene comes from exactly one gene
mean, so the two counts add up to the number of gene means. -/
theorem emitAnnots_length_add_skipped (means : List (String × ℚ))
    (gp : List (String × GenePos)) (ts : List ℚ) :
    (emitAnnots means gp ts).length + skippedGeneCount means gp
      = means.length := by
  induction means with
  | nil => simp [emitAnnots, skippedGeneCount]
  | cons gm t ih =>
    cases h : lookupPos gp gm.1 with
    | some p =>
      rw [emitAnnots_cons_some gm t gp ts p h,
        skippedGeneCount_cons_some gm t gp p h]
      simp only [List.length_cons]
      omega
    | none =>
      rw [emitAnnots_cons_none gm t gp ts h,
        skippedGeneCount_cons_none gm t gp h]
      simp only [List.length_cons]
      omega

/-- Every emitted record's gene is one of the input genes and has a position
entry. -/
theorem emitAnnots_gene_mem (means : List (String × ℚ))
    (gp : List (String × GenePos)) (ts : List ℚ) (a : Annot)
    (ha : a ∈ emitAnnots means gp ts) :
    a.gene ∈ means.map Prod.fst ∧ (lookupPos gp a.gene).isSome := by
  simp only [emitAnnots, List.mem_filterMap] at ha
  obtain ⟨gm, hgm, heq⟩ := ha
  cases h : lookupPos gp gm.1 with
  | none => rw [h] at heq; simp at heq
  | some p =>
    rw [h] at heq
    simp only [Option.map_some', Option.some.injEq] at heq
    have hg : a.gene = gm.1 := by rw [← heq]
    rw [hg]
    exact ⟨List.mem_map_of_mem Prod.fst hgm, by simp [h]⟩

/-- Gene order of the emitted records follows the gene-mean order, restricted
to genes with a position entry. -/
theorem emitAnnots_genes_eq (means : List (String × ℚ))
    (gp : List (String × GenePos)) (ts : List ℚ) :
    (emitAnnots means gp ts).map (fun a => a.gene)
      = (means.map Prod.fst).filter (fun g => (lookupPos gp g).isSome) := by
  induction means with
  | nil => simp [emitAnnots]
  | cons gm t ih =>
    cases h : lookupPos gp gm.1 with
    | some p =>
      rw [emitAnnots_cons_some gm t gp ts p h]
      simp [List.filter_cons, h, ih]
    | none =>
      rw [emitAnnots_cons_none gm t gp ts h]
      simp [List.filter_cons, h, ih]

/-- With unique gene identifiers, each gene that has a position entry yields
exactly one record. -/
theorem emitAnnots_count_one (means : List (String × ℚ))
    (gp : List (String × GenePos)) (ts : List ℚ) (g : String) (q : ℚ)
    (p : GenePos) (hnd : (means.map Prod.fst).Nodup) (hg : (g, q) ∈ means)
    (hp : lookupPos gp g = some p) :
    ((emitAnnots means gp ts).filter (fun a => a.gene = g)).length = 1 := by
  induction means with
  | nil => simp at hg
  | cons gm t ih =>
    simp only [List.map_cons, List.nodup_cons] at hnd
    rcases List.mem_cons.mp hg with heq | hmem
    · have hgm1 : gm.1 = g := by rw [← heq]
      have htail : (emitAnnots t gp ts).filter (fun a => a.gene = g) = [] := by
        rw [List.filter_eq_nil_iff]
        intro a ha
        have hmem2 := (emitAnnots_gene_mem t gp ts a ha).1
        simp only [decide_eq_true_eq]
        intro hag
        exact hnd.1 (hgm1 ▸ hag ▸ hmem2)
      rw [emitAnnots_cons_some gm t gp ts p (by rw [hgm1]; exact hp)]
      simp [List.filter_cons, hgm1, htail]
    · have hgm1 : ¬ gm.1 = g := by
        intro he
        exact hnd.1 (he ▸ List.mem_map_of_mem Prod.fst hmem)
      cases h : lookupPos gp gm.1 with
      | some p2 =>
        rw [emitAnnots_cons_some gm t gp ts p2 h]
        simpa [List.filter_cons, hgm1] using ih hnd.2 hmem
      | none =>
        rw [emitAnnots_cons_none gm t gp ts h]
        exact ih hnd.2 hmem

/-- Injectivity of the emitted output path in the reference-group name, for a
fixed output directory and observation cluster. -/
theorem ideogramAnnotsPath_injective (dir obs : String) :
    Function.Injective (ideogramAnnotsPath dir obs) := by
  intro r s h
  apply append_middle_inj
    (dir ++ "/ideogram_exp_means/" ++ "ideogram_exp_means__" ++ obs ++ "--")
    "--group--cluster.json"
  simpa [ideogramAnnotsPath, ideogramAnnotsFileName, String.append_assoc]
    using h

/- ### Claim theorems -/

/-- C1: a pipeline run covering a list of reference groups emits one output
path per group; the paths are pairwise distinct whenever the reference-group
names are, and every path embeds both the observation-cluster name and the
reference-group name. -/
theorem output_paths_per_ref_group_distinct (dir obs : String)
    (refs : List String) (hnd : refs.Nodup) :
    (emittedPaths dir obs refs).length = refs.length
    ∧ (emittedPaths dir obs refs).Nodup
    ∧ ∀ r : String, ∃ u v w x : String,
        ideogramAnnotsPath dir obs r = u ++ obs ++ v
        ∧ ideogramAnnotsPath dir obs r = w ++ r ++ x := by
  refine ⟨by simp [emittedPaths], ?_, ?_⟩
  · simpa [emittedPaths] using
      List.Nodup.map (ideogramAnnotsPath_injective dir obs) hnd
  · intro r
    refine ⟨dir ++ "/ideogram_exp_means/" ++ "ideogram_exp_means__",
      "--" ++ r ++ "--group--cluster.json",
      dir ++ "/ideogram_exp_means/" ++ "ideogram_exp_means__" ++ obs ++ "--",
      "--group--cluster.json", ?_, ?_⟩ <;>
      simp only [ideogramAnnotsPath, ideogramAnnotsFileName,
        ← String.append_assoc]

/-- C2 counterexample: for a workflow invocation whose caller-supplied
delimiter is a tab, the conversion step is nevertheless invoked with a
space delimiter token, so the claim that the conversion step always uses the
caller-supplied delimiter is false. -/
theorem conversion_step_ignores_caller_delimiter :
    run_matrix_to_ideogram_annots_matrix_delimiter_token
      { matrix_file := "matrix.txt"
        gene_pos_file := "gen_pos.txt"
        metadata_file := "metadata.txt"
        output_dir := "out"
        diskSpace := "100"
        delimiter := "\t"
        ref_cluster_name := "ref"
        ref_group_name := "refgroup"
        ref_cluster_file := "ref.txt"
        obs_cluster_name := "obs"
        obs_cluster_file := "obs.txt"
        reference_cell_annotation := "ra"
        observation_cell_annotation := "oa" }
      ≠ ansiCQuote "\t" := by
  decide

/-- C2 amended: for every workflow invocation the conversion step's matrix
delimiter token is the constant space token, regardless of the
caller-supplied delimiter, while the inference step does receive the
caller-supplied delimiter for both of its delimiter flags. -/
theorem conversion_delimiter_amended (i : InfercnvWorkflowInputs) :
    run_matrix_to_ideogram_annots_matrix_delimiter_token i = ansiCQuote " "
    ∧ run_infercnv_matrix_delimiter_token i = ansiCQuote i.delimiter
    ∧ run_infercnv_delim_token i = ansiCQuote i.delimiter :=
  ⟨rfl, rfl, rfl⟩

/-- C3: with sorted thresholds, a mean equal to the boundary after the first
k thresholds lands in bin k+1, every mean at or below that boundary lands in
a bin at most k+1, and every mean strictly above it lands in a bin at least
k+2 when a higher threshold exists — so a mean exactly on a boundary is
consistently assigned to the lower bin. -/
theorem threshold_boundary_tie_lower_bin (l₁ l₂ : List ℚ) (b : ℚ)
    (hs : (l₁ ++ b :: l₂).Pairwise (· < ·)) :
    getBin (l₁ ++ b :: l₂) b = l₁.length + 1
    ∧ (∀ m, m ≤ b → getBin (l₁ ++ b :: l₂) m ≤ l₁.length + 1)
    ∧ (l₂ ≠ [] → ∀ m, b < m → l₁.length + 2 ≤ getBin (l₁ ++ b :: l₂) m) := by
  have hparts := List.pairwise_append.mp hs
  have h₁l : ∀ a ∈ l₁, a < b := fun a ha =>
    hparts.2.2 a ha b (List.mem_cons_self b l₂)
  have h₂l : ∀ x ∈ l₂, b < x := (List.pairwise_cons.mp hparts.2.1).1
  refine ⟨?_, ?_, ?_⟩
  · have hfl : l₁.filter (fun t => t < b) = l₁ :=
      List.filter_eq_self.mpr (fun a ha => by simpa using h₁l a ha)
    have hfr : (b :: l₂).filter (fun t => t < b) = [] := by
      rw [List.filter_eq_nil_iff]
      intro x hx
      simp only [decide_eq_true_eq]
      rcases List.mem_cons.mp hx with rfl | hx2
      · exact lt_irrefl x
      · exact not_lt.mpr (le_of_lt (h₂l x hx2))
    simp only [getBin, List.filter_append, hfl, hfr, List.length_append,
      List.length_nil, List.length_cons]
    omega
  · intro m hm
    have hfr : (b :: l₂).filter (fun t => t < m) = [] := by
      rw [List.filter_eq_nil_iff]
      intro x hx
      simp only [decide_eq_true_eq]
      rcases List.mem_cons.mp hx with rfl | hx2
      · exact not_lt.mpr hm
      · exact not_lt.mpr (hm.trans (le_of_lt (h₂l x hx2)))
    have hle : (l₁.filter (fun t => decide (t < m))).length ≤ l₁.length :=
      List.length_filter_le _ _
    simp only [getBin, List.filter_append, hfr, List.length_append,
      List.length_nil, List.length_cons]
    omega
  · intro hne m hm
    have hfl : l₁.filter (fun t => t < m) = l₁ :=
      List.filter_eq_self.mpr (fun a ha => by
        simpa using lt_trans (h₁l a ha) hm)
    have hbm : (b :: l₂).filter (fun t => t < m)
        = b :: l₂.filter (fun t => t < m) := by
      rw [List.filter_cons]
      simp [hm]
    have hl₂ : 0 < l₂.length := List.length_pos.mpr hne
    simp only [getBin, List.filter_append, hfl, hbm, List.length_append,
      List.length_cons]
    omega

/-- C4: the columns aggregated for a cluster are exactly the matrix columns
whose cell identifier is mapped to the cluster label — their count equals
the number of such identifiers in the metadata — they are used in the
original column order of the matrix, and the aggregate is the per-gene
arithmetic mean over them. -/
theorem cluster_aggregation_correct (m : ExpressionMatrix)
    (meta : CellMetadata) (L : String)
    (hlen : ∀ r ∈ m.rows, r.2.length = m.cells.length)
    (hperm : m.cells.Perm (meta.map Prod.fst))
    (hnd : (meta.map Prod.fst).Nodup) :
    clusterSize m meta L = (meta.filter (fun p => p.2 = L)).length
    ∧ (∀ r ∈ m.rows,
        (selectCols m.cells r.2 meta L).length = clusterSize m meta L)
    ∧ (∀ r ∈ m.rows, (selectCols m.cells r.2 meta L).Sublist r.2)
    ∧ clusterMeans m meta L = m.rows.map (fun r =>
        (r.1, (selectCols m.cells r.2 meta L).sum
          / ((selectCols m.cells r.2 meta L).length : ℚ))) := by
  refine ⟨?_, ?_, ?_, rfl⟩
  · have hp : (m.cells.filter (fun c => lookupLabel meta c = some L)).length
        = ((meta.map Prod.fst).filter
            (fun c => lookupLabel meta c = some L)).length :=
      (List.Perm.filter _ hperm).length_eq
    exact hp.trans (meta_label_count meta L hnd)
  · intro r hr
    exact selectCols_length m.cells r.2 meta L (hlen r hr)
  · intro r hr
    exact selectCols_sublist m.cells r.2 meta L

/-- C5: for every emitted group, each input gene that has a position entry
appears in exactly one record of the emitted document, each gene without a
position entry appears in no record, and the record count plus the skip
count equals the number of input genes. -/
theorem gene_position_partition (means : List (String × ℚ))
    (gp : List (String × GenePos)) (ts : List ℚ)
    (hnd : (means.map Prod.fst).Nodup) :
    (∀ g q p, (g, q) ∈ means → lookupPos gp g = some p →
        ((emitAnnots means gp ts).filter (fun a => a.gene = g)).length = 1)
    ∧ (∀ g, lookupPos gp g = none →
        ∀ a ∈ emitAnnots means gp ts, a.gene ≠ g)
    ∧ (emitAnnots means gp ts).length + skippedGeneCount means gp
        = means.length := by
  refine ⟨?_, ?_, emitAnnots_length_add_skipped means gp ts⟩
  · intro g q p hg hp
    exact emitAnnots_count_one means gp ts g q p hnd hg hp
  · intro g hnone a ha hag
    have hsome := (emitAnnots_gene_mem means gp ts a ha).2
    rw [hag, hnone] at hsome
    simp at hsome

/-- C6: a requested cluster label with zero matching cells makes the group
run fail with a `DataQualityError` — no division by zero, no NaN — and no
output file is written for that group. -/
theorem zero_cell_cluster_fails (m : ExpressionMatrix) (meta : CellMetadata)
    (gp : List (String × GenePos)) (ts : List ℚ) (dir obs ref label : String)
    (h : clusterSize m meta label = 0) :
    emitGroup m meta gp ts dir obs ref label = .error .DataQualityError
    ∧ filesWritten (emitGroup m meta gp ts dir obs ref label) = [] := by
  constructor
  · simp [emitGroup, h]
  · simp [filesWritten, emitGroup, h]

/-- C7: two runs on identical inputs yield identical outcomes (equal output
on success and the same failure on re-run), and the gene order of the
emitted records is the input matrix's row order restricted to genes with a
position entry, not any unordered iteration. -/
theorem run_determinism_and_gene_order (m : ExpressionMatrix)
    (meta : CellMetadata) (gp : List (String × GenePos)) (ts : List ℚ)
    (dir obs ref label : String) :
    (∀ out₁ out₂ : Except PipelineError OutputFile,
        out₁ = emitGroup m meta gp ts dir obs ref label →
        out₂ = emitGroup m meta gp ts dir obs ref label → out₁ = out₂)
    ∧ (emitAnnots (clusterMeans m meta label) gp ts).map (fun a => a.gene)
        = (m.rows.map Prod.fst).filter (fun g => (lookupPos gp g).isSome) := by
  constructor
  · intro o₁ o₂ h₁ h₂
    rw [h₁, h₂]
  · rw [emitAnnots_genes_eq]
    congr 1
    simp only [clusterMeans, List.map_map]
    rfl

/-- C8: the heatmap-thresholds handoff is the identity — the conversion call
site binds exactly the inference task's declared thresholds output file, so
the threshold sequence the emitter reads equals the sequence the inference
step emitted, with nothing added, removed, reordered, or rescaled. -/
theorem thresholds_passed_unchanged (i : InfercnvWorkflowInputs)
    (store : String → List ℚ) :
    (matrix_to_ideogram_call i).heatmap_thresholds_file
        = (run_infercnv_outputs i).heatmap_thresholds_file
    ∧ workflowEmitterThresholds i store = inferenceThresholds i store
    ∧ workflowEmitterThresholds i store
        = store (i.output_dir ++ "/infercnv.heatmap_thresholds.txt") :=
  ⟨rfl, rfl, rfl⟩

/-- C9: the Ideogram instance mounted by the front end is built from a
constant configuration independent of props, state, and window: its
annotationsPath is the single hard-coded JSON file and its legend holds
exactly the three bins Low, Normal, High. -/
theorem ideogram_config_constant {P S W Q T V : Type} (p : P) (s : S)
    (w : BrowserWindow W) (q : Q) (t : T) (v : BrowserWindow V) :
    ((componentDidMount p s w).2).config.annotationsPath
        = "data/ideogram_exp_means__observation--Sample--group--cluster.json"
    ∧ ((componentDidMount p s w).2).config.legend.map
        (fun e => e.rows.map (fun r => r.name)) = [["Low", "Normal", "High"]]
    ∧ ((componentDidMount p s w).2).config = appIdeogramConfig
    ∧ ((componentDidMount p s w).2).config
        = ((componentDidMount q t v).2).config :=
  ⟨rfl, rfl, rfl, rfl⟩

/-- C10: every mount assigns a newly constructed Ideogram instance to the
window's `ideogram` global and returns that instance; every other window
field is left unchanged, and the previous value of the global has no effect
on the result — it is overwritten, not merged. -/
theorem window_ideogram_overwrite {P S W : Type} (p : P) (s : S)
    (w : BrowserWindow W) (x y : Option Ideogram) :
    (componentDidMount p s w).1
        = { w with ideogram := some (componentDidMount p s w).2 }
    ∧ (componentDidMount p s w).2 = { config := appIdeogramConfig }
    ∧ ((componentDidMount p s w).1).rest = w.rest
    ∧ (componentDidMount p s { w with ideogram := x }).1
        = (componentDidMount p s { w with ideogram := y }).1 :=
  ⟨rfl, rfl, rfl, rfl⟩

/- ### Witnesses -/

/-- Witness for C1 at a concrete run with two reference groups. -/
theorem output_paths_per_ref_group_distinct_witness :
    (["ref1", "ref2"] : List String).Nodup
    ∧ ((emittedPaths "out" "obs" ["ref1", "ref2"]).length
          = (["ref1", "ref2"] : List String).length
      ∧ (emittedPaths "out" "obs" ["ref1", "ref2"]).Nodup
      ∧ ∀ r : String, ∃ u v w x : String,
          ideogramAnnotsPath "out" "obs" r = u ++ "obs" ++ v
          ∧ ideogramAnnotsPath "out" "obs" r = w ++ r ++ x) :=
  ⟨by decide,
    output_paths_per_ref_group_distinct "out" "obs" ["ref1", "ref2"]
      (by decide)⟩

/-- Witness for C3 at the spec's concrete thresholds 3 and 8. -/
theorem threshold_boundary_tie_lower_bin_witness :
    (([] ++ (3 : ℚ) :: [8]).Pairwise (· < ·))
    ∧ (getBin (([] : List ℚ) ++ (3 : ℚ) :: [8]) 3
          = ([] : List ℚ).length + 1
      ∧ (∀ m, m ≤ (3 : ℚ) →
          getBin (([] : List ℚ) ++ (3 : ℚ) :: [8]) m
            ≤ ([] : List ℚ).length + 1)
      ∧ (([8] : List ℚ) ≠ [] → ∀ m, (3 : ℚ) < m →
          ([] : List ℚ).length + 2
            ≤ getBin (([] : List ℚ) ++ (3 : ℚ) :: [8]) m)) :=
  ⟨by norm_num [List.pairwise_cons],
    threshold_boundary_tie_lower_bin [] [8] 3
      (by norm_num [List.pairwise_cons])⟩

/-- Witness for C4 at the spec's concrete scenario. -/
theorem cluster_aggregation_correct_witness :
    (∀ r ∈ exampleMatrix.rows, r.2.length = exampleMatrix.cells.length)
    ∧ exampleMatrix.cells.Perm (exampleMeta.map Prod.fst)
    ∧ (exampleMeta.map Prod.fst).Nodup
    ∧ (clusterSize exampleMatrix exampleMeta "obs"
          = (exampleMeta.filter (fun p => p.2 = "obs")).length
      ∧ (∀ r ∈ exampleMatrix.rows,
          (selectCols exampleMatrix.cells r.2 exampleMeta "obs").length
            = clusterSize exampleMatrix exampleMeta "obs")
      ∧ (∀ r ∈ exampleMatrix.rows,
          (selectCols exampleMatrix.cells r.2 exampleMeta "obs").Sublist r.2)
      ∧ clusterMeans exampleMatrix exampleMeta "obs"
          = exampleMatrix.rows.map (fun r =>
              (r.1,
                (selectCols exampleMatrix.cells r.2 exampleMeta "obs").sum
                  / ((selectCols exampleMatrix.cells r.2
                      exampleMeta "obs").length : ℚ)))) := by
  have h1 : ∀ r ∈ exampleMatrix.rows, r.2.length = exampleMatrix.cells.length :=
    by decide
  have h2 : exampleMatrix.cells.Perm (exampleMeta.map Prod.fst) :=
    List.Perm.refl _
  have h3 : (exampleMeta.map Prod.fst).Nodup := by decide
  exact ⟨h1, h2, h3,
    cluster_aggregation_correct exampleMatrix exampleMeta "obs" h1 h2 h3⟩

/-- Witness for C5 at a two-gene input with one unpositioned gene. -/
theorem gene_position_partition_witness :
    (exampleMeans.map Prod.fst).Nodup
    ∧ ((∀ g q p, (g, q) ∈ exampleMeans →
          lookupPos exampleGenePos g = some p →
          ((emitAnnots exampleMeans exampleGenePos
              ([3, 8] : List ℚ)).filter (fun a => a.gene = g)).length = 1)
      ∧ (∀ g, lookupPos exampleGenePos g = none →
          ∀ a ∈ emitAnnots exampleMeans exampleGenePos ([3, 8] : List ℚ),
            a.gene ≠ g)
      ∧ (emitAnnots exampleMeans exampleGenePos ([3, 8] : List ℚ)).length
          + skippedGeneCount exampleMeans exampleGenePos
          = exampleMeans.length) :=
  ⟨by decide,
    gene_position_partition exampleMeans exampleGenePos ([3, 8] : List ℚ)
      (by decide)⟩

/-- Witness for C6 at a request for the cluster "groupX" with no members. -/
theorem zero_cell_cluster_fails_witness :
    clusterSize zeroCellMatrix zeroCellMeta "groupX" = 0
    ∧ (emitGroup zeroCellMatrix zeroCellMeta [] [] "out" "obs" "ref" "groupX"
          = .error .DataQualityError
      ∧ filesWritten (emitGroup zeroCellMatrix zeroCellMeta [] [] "out" "obs"
          "ref" "groupX") = []) :=
  ⟨by decide,
    zero_cell_cluster_fails zeroCellMatrix zeroCellMeta [] [] "out" "obs"
      "ref" "groupX" (by decide)⟩

/-- Witness for C7 at the spec's concrete scenario. -/
theorem run_determinism_and_gene_order_witness :
    (∀ out₁ out₂ : Except PipelineError OutputFile,
        out₁ = emitGroup exampleMatrix exampleMeta exampleGenePos
            ([3, 8] : List ℚ) "out" "obs" "ref" "obs" →
        out₂ = emitGroup exampleMatrix exampleMeta exampleGenePos
            ([3, 8] : List ℚ) "out" "obs" "ref" "obs" →
        out₁ = out₂)
    ∧ (emitAnnots (clusterMeans exampleMatrix exampleMeta "obs")
          exampleGenePos ([3, 8] : List ℚ)).map (fun a => a.gene)
        = (exampleMatrix.rows.map Prod.fst).filter
            (fun g => (lookupPos exampleGenePos g).isSome) :=
  run_determinism_and_gene_order exampleMatrix exampleMeta exampleGenePos
    ([3, 8] : List ℚ) "out" "obs" "ref" "obs"
